import Mathlib

/-!
Verification of the format-negotiation core of the jaenokhwa webcam capture
library, shallowly embedded from `jaenokhwa-core/src/types.rs` and the
AVFoundation binding `nokhwa-bindings-macos/src/lib.rs`.

Machine integers: `u32` fields are modelled as `Nat`; the places where the
Rust source casts to `i32` and can overflow are modelled explicitly with
two's-complement wrapping on `Int` (release-mode semantics), see `wrap32`.
`isize`/`i128` control values are modelled as `Int`.  `f64` is modelled as an
uninterpreted bit pattern (`Float64`), and code paths that interpret floats
are abstracted behind an explicit parameter record (`FloatOpsModel`).
-/

namespace Jaenokhwa

/-- FourCC pixel-encoding tag (`four_cc::FourCC`): an opaque
equality-comparable 4-byte code, modelled as a natural number. -/
abbrev FourCC := Nat

/-- `Resolution` from `types.rs`: a width (`width_x`) and height
(`height_y`), both `u32`. -/
structure Resolution where
  width_x : Nat
  height_y : Nat
deriving DecidableEq, Repr

/-- `Resolution::x()` (the width). -/
def Resolution.x (r : Resolution) : Nat := r.width_x

/-- `Resolution::y()` (the height). -/
def Resolution.y (r : Resolution) : Nat := r.height_y

/-- The `Ord` implementation for `Resolution` in `types.rs`: compare the
widths; on equality compare the heights. -/
def Resolution.cmp (a b : Resolution) : Ordering :=
  match compare a.x b.x with
  | Ordering.lt => Ordering.lt
  | Ordering.eq => compare a.y b.y
  | Ordering.gt => Ordering.gt

/-- `CameraFormat` from `types.rs`: a resolution, a FourCC and a frame
rate (`u32`, fps). -/
structure CameraFormat where
  resolution : Resolution
  format : FourCC
  frame_rate : Nat
deriving DecidableEq, Repr

/-- `RequestedFormatType` from `types.rs`. -/
inductive RequestedFormatType where
  | AbsoluteHighestResolution : RequestedFormatType
  | AbsoluteHighestFrameRate : RequestedFormatType
  | HighestResolution : Resolution → RequestedFormatType
  | HighestFrameRate : Nat → RequestedFormatType
  | Closest : CameraFormat → RequestedFormatType
  | None : RequestedFormatType
deriving DecidableEq, Repr

/-- The order used by `formats.sort_by_key(CameraFormat::resolution)` and by
`sort_by(|a, b| a.resolution.cmp(&b.resolution))`: `a` may stay before `b`
exactly when `a`'s resolution does not compare `Greater`. -/
def byResolutionLe (a b : CameraFormat) : Prop :=
  Resolution.cmp a.resolution b.resolution ≠ Ordering.gt

instance : DecidableRel byResolutionLe :=
  fun a b => inferInstanceAs (Decidable (Resolution.cmp a.resolution b.resolution ≠ Ordering.gt))

/-- The order used by `sort_by_key(CameraFormat::frame_rate)` and by
`sort_by(|a, b| a.frame_rate.cmp(&b.frame_rate))`. -/
def byFrameRateLe (a b : CameraFormat) : Prop :=
  a.frame_rate ≤ b.frame_rate

instance : DecidableRel byFrameRateLe :=
  fun a b => inferInstanceAs (Decidable (a.frame_rate ≤ b.frame_rate))

/-- The order used by `resolution_map.sort_by(|a, b| a.0.cmp(&b.0))` on
`(i32, Resolution)` pairs; the `i32` keys are in-range integers, on which
the signed comparison is the integer order. -/
def distFstLe (a b : Int × Resolution) : Prop := a.1 ≤ b.1

instance : DecidableRel distFstLe :=
  fun a b => inferInstanceAs (Decidable (a.1 ≤ b.1))

/-- The order used by `framerate_map.sort_by(|a, b| a.0.cmp(&b.0))` on
`(u32, u32)` pairs. -/
def fpsFstLe (a b : Nat × Nat) : Prop := a.1 ≤ b.1

instance : DecidableRel fpsFstLe :=
  fun a b => inferInstanceAs (Decidable (a.1 ≤ b.1))

/-- Two's-complement wrap-around into the `i32` range, the release-mode
behaviour of overflowing `i32` arithmetic in Rust. -/
def wrap32 (n : Int) : Int := (n + 2 ^ 31) % 2 ^ 32 - 2 ^ 31

/-- Two's-complement wrap-around into the 64-bit `isize` range, the
release-mode behaviour of overflowing `isize` arithmetic in Rust. -/
def wrap64 (n : Int) : Int := (n + 2 ^ 63) % 2 ^ 64 - 2 ^ 63

/-- The cast `n as i32` for a `u32` value `n`. -/
def u32AsI32 (n : Nat) : Int := wrap32 n

/-- `i32` subtraction. -/
def i32Sub (a b : Int) : Int := wrap32 (a - b)

/-- `i32::abs`. -/
def i32Abs (a : Int) : Int := wrap32 |a|

/-- `i32::pow(_, 2)`, i.e. a wrapping square. -/
def i32Sq (a : Int) : Int := wrap32 (a * a)

/-- `i32` addition. -/
def i32Add (a b : Int) : Int := wrap32 (a + b)

/-- The per-candidate squared distance `dist_no_sqrt` computed inside
`RequestedFormat::fulfill` for `Closest`:
`(x_diff.abs()).pow(2) + (y_diff.abs()).pow(2)` where
`x_diff = res.x() as i32 - c.resolution().x() as i32` and similarly for `y`,
all in `i32` arithmetic. -/
def dist_no_sqrt (res target : Resolution) : Int :=
  let x_diff := i32Sub (u32AsI32 res.x) (u32AsI32 target.x)
  let y_diff := i32Sub (u32AsI32 res.y) (u32AsI32 target.y)
  i32Add (i32Sq (i32Abs x_diff)) (i32Sq (i32Abs y_diff))

/-- The frame-rate key in `fulfill`'s `Closest` branch:
`(*x as i32 - c.frame_rate() as i32).unsigned_abs()` as a `u32` value. -/
def fpsAbsDiff (x target : Nat) : Nat :=
  (i32Sub (u32AsI32 x) (u32AsI32 target)).natAbs

/-- Helper for `dedupByDist`: walks the list keeping `prev` as the last
retained element, dropping elements whose key equals `prev`'s key, exactly
like `Vec::dedup_by` does with the closure `|a, b| a.0.eq(&b.0)`. -/
def dedupByDistAux (prev : Int × Resolution) :
    List (Int × Resolution) → List (Int × Resolution)
  | [] => []
  | a :: l =>
    if a.1 = prev.1 then dedupByDistAux prev l else a :: dedupByDistAux a l

/-- `resolution_map.dedup_by(|a, b| a.0.eq(&b.0))`: remove all but the first
of each run of consecutive pairs with equal first component. -/
def dedupByDist : List (Int × Resolution) → List (Int × Resolution)
  | [] => []
  | a :: l => a :: dedupByDistAux a l

/-- `RequestedFormat::fulfill` from `types.rs`.  Rust's `sort_by` /
`sort_by_key` are stable sorts, modelled with `List.insertionSort` (also
stable); `iter().last()` is `getLast?`, `first()` is `head?`. -/
def fulfill (req : RequestedFormatType) (all_formats : List CameraFormat) :
    Option CameraFormat :=
  match req with
  | RequestedFormatType.AbsoluteHighestResolution =>
    let formats := List.insertionSort byResolutionLe all_formats
    match formats.getLast? with
    | none => none
    | some resolution =>
      let format_resolutions :=
        formats.filter (fun fmt => decide (fmt.resolution = resolution.resolution))
      (List.insertionSort byFrameRateLe format_resolutions).getLast?
  | RequestedFormatType.AbsoluteHighestFrameRate =>
    let formats := List.insertionSort byFrameRateLe all_formats
    match formats.getLast? with
    | none => none
    | some frame_rate =>
      let format_framerates :=
        formats.filter (fun fmt => decide (fmt.frame_rate = frame_rate.frame_rate))
      (List.insertionSort byResolutionLe format_framerates).getLast?
  | RequestedFormatType.HighestResolution res =>
    let formats := List.insertionSort byFrameRateLe
      (all_formats.filter (fun x => decide (x.resolution = res)))
    match formats.getLast? with
    | none => none
    | some cf =>
      (formats.filter (fun x => decide (x.frame_rate = cf.frame_rate))).getLast?
  | RequestedFormatType.HighestFrameRate fps =>
    let formats := List.insertionSort byResolutionLe
      (all_formats.filter (fun x => decide (x.frame_rate = fps)))
    match formats.getLast? with
    | none => none
    | some cf =>
      (formats.filter (fun x => decide (x.resolution = cf.resolution))).getLast?
  | RequestedFormatType.Closest c =>
    let same_fourcc_formats := all_formats.filter (fun x => decide (x.format = c.format))
    let resolution_map := same_fourcc_formats.map
      (fun x => (dist_no_sqrt x.resolution c.resolution, x.resolution))
    match (dedupByDist (List.insertionSort distFstLe resolution_map)).head? with
    | none => none
    | some p =>
      let frame_rates := all_formats.filterMap (fun camera_format =>
        if camera_format.format = c.format ∧ camera_format.resolution = c.resolution then
          some camera_format.frame_rate
        else none)
      let framerate_map := frame_rates.map (fun x => (fpsAbsDiff x c.frame_rate, x))
      match (List.insertionSort fpsFstLe framerate_map).head? with
      | none => none
      | some q => some ⟨p.2, c.format, q.2⟩
  | RequestedFormatType.None => all_formats.head?

/-! ### Specification-side selection functions

These formalise the spec's wording for the `Closest` policy: pick the
entry achieving the minimum key, ties broken by iteration order (keep the
first). -/

/-- The first element of the list achieving the minimal key (`none` on an
empty list): the spec's "minimum, ties broken by iteration order". -/
def firstMinBy {α κ : Type} [LinearOrder κ] (k : α → κ) : List α → Option α
  | [] => none
  | a :: l =>
    match firstMinBy k l with
    | none => some a
    | some b => if k a ≤ k b then some a else some b

/-- Exact squared Euclidean distance between two resolutions in
(width, height) space, as unbounded integers. -/
def sqDistExact (a b : Resolution) : Int :=
  ((a.width_x : Int) - b.width_x) ^ 2 + ((a.height_y : Int) - b.height_y) ^ 2

/-- The spec's resolution selection for `Closest(target)`: among the
entries of `available` with the target's encoding, the resolution of the
first entry achieving the minimal exact squared distance to the target's
resolution. -/
def closestResolutionSpec (target : CameraFormat) (available : List CameraFormat) :
    Option Resolution :=
  (firstMinBy (fun x => sqDistExact x.resolution target.resolution)
    (available.filter (fun x => decide (x.format = target.format)))).map
    (fun x => x.resolution)

/-- The spec's frame-rate selection for `Closest(target)`: among the
entries of `available` with the target's encoding and resolution `res`, the
frame rate of the first entry achieving the minimal exact absolute
difference to the target's frame rate. -/
def closestFrameRateSpec (target : CameraFormat) (available : List CameraFormat)
    (res : Resolution) : Option Nat :=
  (firstMinBy (fun x => ((x.frame_rate : Int) - target.frame_rate).natAbs)
    (available.filter
      (fun x => decide (x.format = target.format ∧ x.resolution = res)))).map
    (fun x => x.frame_rate)

/-! ### Toolkit lemmas -/

theorem firstMinBy_eq_none {α κ : Type} [LinearOrder κ] (k : α → κ) :
    ∀ l : List α, firstMinBy k l = none ↔ l = []
  | [] => by simp [firstMinBy]
  | a :: l => by
    rcases h : firstMinBy k l with _ | b <;> simp [firstMinBy, h]
    split <;> simp

theorem firstMinBy_mem {α κ : Type} [LinearOrder κ] (k : α → κ) :
    ∀ {l : List α} {a : α}, firstMinBy k l = some a → a ∈ l
  | [], a => by simp [firstMinBy]
  | x :: l, a => by
    rcases h : firstMinBy k l with _ | b
    · simp only [firstMinBy, h]
      rintro ⟨⟩
      exact List.mem_cons_self _ _
    · simp only [firstMinBy, h]
      split
      · rintro ⟨⟩; exact List.mem_cons_self _ _
      · rintro ⟨⟩; exact List.mem_cons_of_mem _ (firstMinBy_mem k h)

theorem firstMinBy_min {α κ : Type} [LinearOrder κ] (k : α → κ) :
    ∀ {l : List α} {a : α}, firstMinBy k l = some a → ∀ b ∈ l, k a ≤ k b
  | [], a => by simp [firstMinBy]
  | x :: l, a => by
    rcases h : firstMinBy k l with _ | c
    · have hl : l = [] := (firstMinBy_eq_none k l).mp h
      subst hl
      simp only [firstMinBy, h]
      rintro ⟨⟩
      simp
    · simp only [firstMinBy, h]
      split
      · rintro ⟨⟩ b hb
        rcases List.mem_cons.mp hb with rfl | hb
        · exact le_refl _
        · exact le_trans (by assumption) (firstMinBy_min k h b hb)
      · rintro ⟨⟩ b hb
        rcases List.mem_cons.mp hb with rfl | hb
        · exact le_of_not_le (by assumption)
        · exact firstMinBy_min k h b hb

theorem firstMinBy_map {α β κ : Type} [LinearOrder κ] (k : β → κ) (f : α → β) :
    ∀ l : List α, firstMinBy k (l.map f) = (firstMinBy (fun x => k (f x)) l).map f
  | [] => rfl
  | a :: l => by
    simp only [List.map_cons, firstMinBy, firstMinBy_map k f l]
    rcases firstMinBy (fun x => k (f x)) l with _ | b <;> simp
    split <;> simp

theorem firstMinBy_congr {α κ : Type} [LinearOrder κ] {k₁ k₂ : α → κ} :
    ∀ {l : List α}, (∀ x ∈ l, k₁ x = k₂ x) → firstMinBy k₁ l = firstMinBy k₂ l
  | [], _ => rfl
  | a :: l, h => by
    have hl : firstMinBy k₁ l = firstMinBy k₂ l :=
      firstMinBy_congr (fun x hx => h x (List.mem_cons_of_mem _ hx))
    have ha : k₁ a = k₂ a := h a (List.mem_cons_self _ _)
    simp only [firstMinBy, hl]
    rcases hb : firstMinBy k₂ l with _ | b
    · rfl
    · have hbmem : b ∈ l := firstMinBy_mem k₂ hb
      have hb2 : k₁ b = k₂ b := h b (List.mem_cons_of_mem _ hbmem)
      simp only [ha, hb2]

/-- The head of a stable (insertion) sort by a key is the first element of
the list achieving the minimal key. -/
theorem head?_insertionSort_eq_firstMinBy {α κ : Type} [LinearOrder κ] (k : α → κ)
    (r : α → α → Prop) [DecidableRel r] (hr : ∀ a b, r a b ↔ k a ≤ k b) :
    ∀ l : List α, (List.insertionSort r l).head? = firstMinBy k l
  | [] => rfl
  | a :: l => by
    rw [List.insertionSort]
    rcases e : List.insertionSort r l with _ | ⟨b, rest⟩
    · have hl : l = [] := by
        have hlen := List.length_insertionSort r l
        rw [e] at hlen
        exact List.eq_nil_of_length_eq_zero hlen.symm
      subst hl
      rfl
    · have ih : firstMinBy k l = some b := by
        rw [← head?_insertionSort_eq_firstMinBy k r hr l, e]
        rfl
      rw [List.orderedInsert]
      by_cases hab : r a b
      · rw [if_pos hab]
        simp only [List.head?, firstMinBy, ih]
        rw [if_pos ((hr a b).mp hab)]
      · rw [if_neg hab]
        simp only [List.head?, firstMinBy, ih]
        rw [if_neg (fun h => hab ((hr a b).mpr h))]

theorem dedupByDist_head? (l : List (Int × Resolution)) :
    (dedupByDist l).head? = l.head? := by
  cases l <;> rfl

theorem mem_of_head? {α : Type} {l : List α} {a : α} (h : l.head? = some a) : a ∈ l := by
  cases l with
  | nil => cases h
  | cons x l => cases h; exact List.mem_cons_self _ _

/-- In a sorted list, every element is related to the last element (or is
that last element). -/
theorem sorted_getLast?_max {α : Type} {r : α → α → Prop} :
    ∀ {l : List α} {m : α}, l.Sorted r → l.getLast? = some m →
      ∀ x ∈ l, x = m ∨ r x m
  | [], m => by simp
  | [a], m => by
    rintro _ ⟨⟩ x hx
    rcases List.mem_singleton.mp hx with rfl
    exact Or.inl rfl
  | a :: b :: t, m => by
    intro hs hlast x hx
    rw [List.getLast?_cons_cons] at hlast
    rcases List.mem_cons.mp hx with rfl | hx
    · exact Or.inr (List.rel_of_sorted_cons hs m (List.mem_of_mem_getLast? hlast))
    · exact sorted_getLast?_max hs.of_cons hlast x hx

theorem getLast?_isSome_of_ne_nil {α : Type} {l : List α} (h : l ≠ []) :
    ∃ a, l.getLast? = some a := by
  rcases e : l.getLast? with _ | a
  · exact absurd (List.getLast?_eq_none_iff.mp e) h
  · exact ⟨a, rfl⟩

/-! ### Arithmetic lemmas for the `i32` model -/

theorem wrap32_eq_self {n : Int} (h1 : -(2 ^ 31) ≤ n) (h2 : n < 2 ^ 31) :
    wrap32 n = n := by
  unfold wrap32
  have h3 : 0 ≤ n + 2 ^ 31 := by omega
  have h4 : n + 2 ^ 31 < 2 ^ 32 := by omega
  rw [Int.emod_eq_of_lt h3 h4]
  omega

theorem wrap64_eq_self {n : Int} (h1 : -(2 ^ 63) ≤ n) (h2 : n < 2 ^ 63) :
    wrap64 n = n := by
  unfold wrap64
  have h3 : 0 ≤ n + 2 ^ 63 := by omega
  have h4 : n + 2 ^ 63 < 2 ^ 64 := by omega
  rw [Int.emod_eq_of_lt h3 h4]
  omega

theorem u32AsI32_eq_self {n : Nat} (h : n < 2 ^ 31) : u32AsI32 n = n := by
  unfold u32AsI32
  exact wrap32_eq_self (by omega) (by omega)

theorem sqDistExact_nonneg (a b : Resolution) : 0 ≤ sqDistExact a b := by
  unfold sqDistExact
  positivity

theorem sqDistExact_eq_zero {a b : Resolution} (h : sqDistExact a b = 0) : a = b := by
  unfold sqDistExact at h
  have h1 : ((a.width_x : Int) - b.width_x) ^ 2 = 0 ∧
      ((a.height_y : Int) - b.height_y) ^ 2 = 0 := by
    constructor <;> nlinarith [sq_nonneg ((a.width_x : Int) - b.width_x),
      sq_nonneg ((a.height_y : Int) - b.height_y)]
  have h2 : (a.width_x : Int) = b.width_x := by nlinarith [h1.1]
  have h3 : (a.height_y : Int) = b.height_y := by nlinarith [h1.2]
  cases a; cases b
  simp only [Resolution.mk.injEq]
  exact ⟨by exact_mod_cast h2, by exact_mod_cast h3⟩

/-- Under the corrected bound (strictly below `2 ^ 15`), the `i32`
computation of the squared distance agrees with exact integer arithmetic. -/
theorem sqAbsWrapFree {d : Int} (hd1 : -(32767 : Int) ≤ d) (hd2 : d ≤ 32767) :
    i32Sq (i32Abs d) = d ^ 2 := by
  unfold i32Abs i32Sq
  have habs : |d| ≤ 32767 := abs_le.mpr ⟨hd1, hd2⟩
  rw [wrap32_eq_self (le_trans (by omega) (abs_nonneg d)) (by omega)]
  have hmul : |d| * |d| = d ^ 2 := by rw [← sq_abs d]; ring
  rw [hmul]
  have hub : d ^ 2 ≤ 32767 * 32767 := by nlinarith
  exact wrap32_eq_self (le_trans (by omega) (sq_nonneg d)) (by omega)

theorem dist_no_sqrt_exact {a b : Resolution}
    (haw : a.width_x ≤ 32767) (hah : a.height_y ≤ 32767)
    (hbw : b.width_x ≤ 32767) (hbh : b.height_y ≤ 32767) :
    dist_no_sqrt a b = sqDistExact a b := by
  simp only [dist_no_sqrt, sqDistExact, Resolution.x, Resolution.y]
  rw [u32AsI32_eq_self (n := a.width_x) (by omega),
    u32AsI32_eq_self (n := b.width_x) (by omega),
    u32AsI32_eq_self (n := a.height_y) (by omega),
    u32AsI32_eq_self (n := b.height_y) (by omega)]
  have ex : i32Sub ((a.width_x : Int)) ((b.width_x : Int)) =
      (a.width_x : Int) - b.width_x := by
    unfold i32Sub
    exact wrap32_eq_self (by omega) (by omega)
  have ey : i32Sub ((a.height_y : Int)) ((b.height_y : Int)) =
      (a.height_y : Int) - b.height_y := by
    unfold i32Sub
    exact wrap32_eq_self (by omega) (by omega)
  rw [ex, ey,
    sqAbsWrapFree (d := (a.width_x : Int) - b.width_x) (by omega) (by omega),
    sqAbsWrapFree (d := (a.height_y : Int) - b.height_y) (by omega) (by omega)]
  unfold i32Add
  have h1 : ((a.width_x : Int) - b.width_x) ^ 2 ≤ 32767 * 32767 := by nlinarith
  have h2 : ((a.height_y : Int) - b.height_y) ^ 2 ≤ 32767 * 32767 := by nlinarith
  exact wrap32_eq_self
    (le_trans (by omega) (add_nonneg (sq_nonneg _) (sq_nonneg _)))
    (by nlinarith [sq_nonneg ((a.width_x : Int) - b.width_x),
      sq_nonneg ((a.height_y : Int) - b.height_y)])

/-- Under the bound `2 ^ 31` on both frame rates, the `i32` absolute
difference key agrees with the exact absolute difference. -/
theorem fpsAbsDiff_exact {x y : Nat} (hx : x < 2 ^ 31) (hy : y < 2 ^ 31) :
    fpsAbsDiff x y = ((x : Int) - y).natAbs := by
  unfold fpsAbsDiff i32Sub
  rw [u32AsI32_eq_self hx, u32AsI32_eq_self hy,
    wrap32_eq_self (by omega) (by omega)]

/-! ### Resolution order characterisation -/

theorem Resolution.cmp_eq_lt {a b : Resolution} :
    Resolution.cmp a b = Ordering.lt ↔
      a.width_x < b.width_x ∨ (a.width_x = b.width_x ∧ a.height_y < b.height_y) := by
  unfold Resolution.cmp Resolution.x Resolution.y
  rcases e : compare a.width_x b.width_x with _ | _ | _
  · simp only []
    rw [Nat.compare_eq_lt] at e
    constructor
    · intro _; exact Or.inl e
    · intro _; trivial
  · rw [Nat.compare_eq_eq] at e
    simp only []
    rw [Nat.compare_eq_lt]
    constructor
    · intro h; exact Or.inr ⟨e, h⟩
    · rintro (h | ⟨_, h⟩)
      · omega
      · exact h
  · rw [Nat.compare_eq_gt] at e
    simp only []
    constructor
    · rintro ⟨⟩
    · rintro (h | ⟨h, _⟩) <;> omega

theorem Resolution.cmp_eq_eq {a b : Resolution} :
    Resolution.cmp a b = Ordering.eq ↔ a = b := by
  unfold Resolution.cmp Resolution.x Resolution.y
  rcases e : compare a.width_x b.width_x with _ | _ | _
  · rw [Nat.compare_eq_lt] at e
    simp only []
    constructor
    · rintro ⟨⟩
    · rintro rfl; omega
  · rw [Nat.compare_eq_eq] at e
    simp only []
    rw [Nat.compare_eq_eq]
    constructor
    · intro h; cases a; cases b; simp_all
    · rintro rfl; rfl
  · rw [Nat.compare_eq_gt] at e
    simp only []
    constructor
    · rintro ⟨⟩
    · rintro rfl; omega

theorem Resolution.cmp_ne_gt {a b : Resolution} :
    Resolution.cmp a b ≠ Ordering.gt ↔
      a.width_x < b.width_x ∨ (a.width_x = b.width_x ∧ a.height_y ≤ b.height_y) := by
  unfold Resolution.cmp Resolution.x Resolution.y
  rcases e : compare a.width_x b.width_x with _ | _ | _
  · rw [Nat.compare_eq_lt] at e
    simp only []
    constructor
    · intro _; exact Or.inl e
    · rintro _ ⟨⟩
  · rw [Nat.compare_eq_eq] at e
    simp only []
    constructor
    · intro h
      refine Or.inr ⟨e, ?_⟩
      by_contra hgt
      exact h (Nat.compare_eq_gt.mpr (by omega))
    · rintro (h | ⟨_, h⟩) hc
      · omega
      · rw [Nat.compare_eq_gt] at hc; omega
  · rw [Nat.compare_eq_gt] at e
    simp only []
    constructor
    · intro h; exact absurd rfl h
    · rintro (h | ⟨h, _⟩) <;> omega

instance : IsTotal CameraFormat byResolutionLe := by
  constructor
  intro a b
  unfold byResolutionLe
  rw [Resolution.cmp_ne_gt, Resolution.cmp_ne_gt]
  omega

instance : IsTrans CameraFormat byResolutionLe := by
  constructor
  intro a b c
  unfold byResolutionLe
  rw [Resolution.cmp_ne_gt, Resolution.cmp_ne_gt, Resolution.cmp_ne_gt]
  omega

theorem byResolutionLe_refl (a : CameraFormat) : byResolutionLe a a := by
  unfold byResolutionLe
  rw [Resolution.cmp_ne_gt]
  omega

instance : IsTotal CameraFormat byFrameRateLe :=
  ⟨fun a b => Nat.le_total a.frame_rate b.frame_rate⟩

instance : IsTrans CameraFormat byFrameRateLe :=
  ⟨fun _ _ _ h1 h2 => Nat.le_trans h1 h2⟩

/-! ### Camera controls (`types.rs` control model and the AVFoundation
`set_control`) -/

/-- Stand-in for Rust's `f64`: the 64-bit pattern, carried around but never
arithmetically interpreted in this embedding (floating-point semantics are
abstracted behind `FloatOpsModel`). -/
structure Float64 where
  bits : Nat
deriving DecidableEq, Repr

/-- Alias for Lean's string type, needed where a surrounding namespace
itself declares a constructor named `String`. -/
abbrev StringValue := String

/-- `ControlValueSetter` from `types.rs`. -/
inductive ControlValueSetter where
  | None : ControlValueSetter
  | Integer : Int → ControlValueSetter
  | Float : Float64 → ControlValueSetter
  | Boolean : Bool → ControlValueSetter
  | String : String → ControlValueSetter
  | Bytes : List Nat → ControlValueSetter
  | KeyValue : Int → Int → ControlValueSetter
  | Point : Float64 → Float64 → ControlValueSetter
  | EnumValue : Int → ControlValueSetter
  | RGB : Float64 → Float64 → Float64 → ControlValueSetter
deriving DecidableEq, Repr

/-- `ControlValueSetter::as_none`. -/
def ControlValueSetter.as_none : ControlValueSetter → Option Unit
  | ControlValueSetter.None => some ()
  | _ => none

/-- `ControlValueSetter::as_integer`. -/
def ControlValueSetter.as_integer : ControlValueSetter → Option Int
  | ControlValueSetter.Integer i => some i
  | _ => none

/-- `ControlValueSetter::as_float`. -/
def ControlValueSetter.as_float : ControlValueSetter → Option Float64
  | ControlValueSetter.Float f => some f
  | _ => none

/-- `ControlValueSetter::as_boolean`. -/
def ControlValueSetter.as_boolean : ControlValueSetter → Option Bool
  | ControlValueSetter.Boolean b => some b
  | _ => none

/-- `ControlValueSetter::as_str`. -/
def ControlValueSetter.as_str : ControlValueSetter → Option StringValue
  | ControlValueSetter.String s => some s
  | _ => none

/-- `ControlValueSetter::as_bytes`. -/
def ControlValueSetter.as_bytes : ControlValueSetter → Option (List Nat)
  | ControlValueSetter.Bytes b => some b
  | _ => none

/-- `ControlValueSetter::as_key_value`. -/
def ControlValueSetter.as_key_value : ControlValueSetter → Option (Int × Int)
  | ControlValueSetter.KeyValue k v => some (k, v)
  | _ => none

/-- `ControlValueSetter::as_point`. -/
def ControlValueSetter.as_point : ControlValueSetter → Option (Float64 × Float64)
  | ControlValueSetter.Point x y => some (x, y)
  | _ => none

/-- `ControlValueSetter::as_enum`. -/
def ControlValueSetter.as_enum : ControlValueSetter → Option Int
  | ControlValueSetter.EnumValue e => some e
  | _ => none

/-- `ControlValueSetter::as_rgb`. -/
def ControlValueSetter.as_rgb : ControlValueSetter → Option (Float64 × Float64 × Float64)
  | ControlValueSetter.RGB r g b => some (r, g, b)
  | _ => none

/-- `ControlValueDescription` from `types.rs`.  `isize`/`i128` fields are
`Int`, `f64` fields are the uninterpreted `Float64`. -/
inductive ControlValueDescription where
  | None : ControlValueDescription
  | Integer : (value default step : Int) → ControlValueDescription
  | IntegerRange : (min max value step default : Int) → ControlValueDescription
  | Float : (value default step : Float64) → ControlValueDescription
  | FloatRange : (min max value step default : Float64) → ControlValueDescription
  | Boolean : (value default : Bool) → ControlValueDescription
  | String : (value : String) → (default : Option String) → ControlValueDescription
  | Bytes : (value default : List Nat) → ControlValueDescription
  | KeyValuePair : (key value : Int) → (default : Int × Int) → ControlValueDescription
  | Point : (value default : Float64 × Float64) → ControlValueDescription
  | Enum : (value : Int) → (possible : List Int) → (default : Int) → ControlValueDescription
  | RGB : (value max default : Float64 × Float64 × Float64) → ControlValueDescription
deriving DecidableEq, Repr

/-- Floating-point semantics of the four `f64`-valued branches of
`verify_setter` (`Float`, `FloatRange`, `Point`, `RGB`), which cannot be
shallowly embedded; theorems below hold for every such interpretation. -/
structure FloatOpsModel where
  verifyFloat : Float64 → Float64 → Float64 → ControlValueSetter → Bool
  verifyFloatRange : Float64 → Float64 → Float64 → Float64 → Float64 →
    ControlValueSetter → Bool
  verifyPoint : ControlValueSetter → Bool
  verifyRGB : Float64 × Float64 × Float64 → ControlValueSetter → Bool

/-- `ControlValueDescription::verify_setter` from `types.rs`.  The `isize`
additions `i + default` and `i + value` wrap at `±2 ^ 63` in release-mode
Rust, modelled with `wrap64`; Rust's `%` on `isize` is truncated division
remainder, `Int.tmod` (its only overflowing case, `isize::MIN % -1`, wraps
to `0` in release mode, which `Int.tmod` also yields), and `%` is only
reached when `step ≠ 0`. -/
def verify_setter (ops : FloatOpsModel) (d : ControlValueDescription)
    (setter : ControlValueSetter) : Bool :=
  match d with
  | ControlValueDescription.None => setter.as_none.isSome
  | ControlValueDescription.Integer value default step =>
    if step = 0 then true
    else
      match setter.as_integer with
      | some i =>
        decide ((wrap64 (i + default)).tmod step = 0 ∨
          (wrap64 (i + value)).tmod step = 0)
      | none => false
  | ControlValueDescription.IntegerRange min max value step default =>
    if step = 0 then true
    else
      match setter.as_integer with
      | some i =>
        decide (((wrap64 (i + default)).tmod step = 0 ∨
          (wrap64 (i + value)).tmod step = 0) ∧
          min ≤ i ∧ i ≤ max)
      | none => false
  | ControlValueDescription.Float value default step =>
    ops.verifyFloat value default step setter
  | ControlValueDescription.FloatRange min max value step default =>
    ops.verifyFloatRange min max value step default setter
  | ControlValueDescription.Boolean _ _ => setter.as_boolean.isSome
  | ControlValueDescription.String _ _ => setter.as_str.isSome
  | ControlValueDescription.Bytes _ _ => setter.as_bytes.isSome
  | ControlValueDescription.KeyValuePair _ _ _ => setter.as_key_value.isSome
  | ControlValueDescription.Point _ _ => ops.verifyPoint setter
  | ControlValueDescription.Enum _ possible _ =>
    match setter.as_enum with
    | some e => possible.contains e
    | none => false
  | ControlValueDescription.RGB _ max _ => ops.verifyRGB max setter

/-- A `FloatOpsModel` used for closed counterexamples; its value is
irrelevant to them (the branches involved never reach a float case). -/
def rejectAllFloatOps : FloatOpsModel :=
  ⟨fun _ _ _ _ => false, fun _ _ _ _ _ _ => false, fun _ => false, fun _ _ => false⟩

/-- `KnownCameraControl` from `types.rs` (`Other` carries a `u128`). -/
inductive KnownCameraControl where
  | Brightness | Contrast | Hue | Saturation | Sharpness | Gamma
  | WhiteBalance | BacklightComp | Gain | Pan | Tilt | Zoom
  | Exposure | Iris | Focus
  | Other : Nat → KnownCameraControl
deriving DecidableEq, Repr

/-- `KnownCameraControlFlag` from `types.rs`. -/
inductive KnownCameraControlFlag where
  | Automatic | Manual | Continuous | ReadOnly | WriteOnly | Volatile | Disabled
deriving DecidableEq, Repr

/-- The empty string (used for control names in concrete examples). -/
def noName : String := ""

/-- `CameraControl` from `types.rs`. -/
structure CameraControl where
  control : KnownCameraControl
  name : String
  description : ControlValueDescription
  flag : List KnownCameraControlFlag
  active : Bool
deriving DecidableEq, Repr

/-- The lookup performed by `set_control` in
`nokhwa-bindings-macos/src/lib.rs`: the control list is collected into a
`BTreeMap` keyed by `cc.control()` (later entries overwrite earlier ones)
and then `get(&id)` is called — i.e. the last entry with the given id. -/
def controlsGet (rc : List CameraControl) (id : KnownCameraControl) :
    Option CameraControl :=
  (rc.filter (fun cc => decide (cc.control = id))).getLast?

/-- Outcome of a `set_control` call: either an early return with
`Err(NokhwaError::SetPropertyError { .. })`, or reaching the final
`msg_send!` that forwards the value to the AVFoundation device (followed by
`Ok(())`).  Error payloads and the specific device selector are omitted;
the claims under verification only distinguish rejection from forwarding. -/
inductive SetOutcome where
  | rejected : SetOutcome
  | forwarded : SetOutcome
deriving DecidableEq, Repr

/-- The guard sequence shared by every value-forwarding branch of
`set_control`: look the control up (else "Control does not exist"), reject
if the `ReadOnly` flag is present, reject if the `Disabled` flag is
present, reject if the setter cannot be converted to the branch's expected
shape (`conv`), reject if `verify_setter` fails, else forward. -/
def setBranch (verify : ControlValueDescription → ControlValueSetter → Bool)
    (rc : List CameraControl) (id : KnownCameraControl)
    (value : ControlValueSetter) (conv : ControlValueSetter → Bool) : SetOutcome :=
  match controlsGet rc id with
  | none => SetOutcome.rejected
  | some ctrl =>
    if ctrl.flag.contains KnownCameraControlFlag.ReadOnly then SetOutcome.rejected
    else if ctrl.flag.contains KnownCameraControlFlag.Disabled then SetOutcome.rejected
    else if conv value then
      if verify ctrl.description value then SetOutcome.forwarded
      else SetOutcome.rejected
    else SetOutcome.rejected

/-- `AVCaptureDevice::set_control` from `nokhwa-bindings-macos/src/lib.rs`,
as a function of the control list the device reports (`get_controls()`),
the control id and the setter value.  It is parameterised by the
`verify_setter` implementation (whose float branches are not embeddable);
each arm mirrors the source branch's conversion (`as_float`, `as_integer`,
`as_enum`, `as_boolean`, `as_point`); `Iris` and unknown ids reject
unconditionally. -/
def set_control (verify : ControlValueDescription → ControlValueSetter → Bool)
    (rc : List CameraControl) (id : KnownCameraControl)
    (value : ControlValueSetter) : SetOutcome :=
  match id with
  | KnownCameraControl.Brightness =>
    setBranch verify rc id value (fun v => v.as_float.isSome)
  | KnownCameraControl.Gamma =>
    setBranch verify rc id value (fun v => v.as_integer.isSome)
  | KnownCameraControl.WhiteBalance =>
    setBranch verify rc id value (fun v => v.as_enum.isSome)
  | KnownCameraControl.BacklightComp =>
    setBranch verify rc id value (fun v => v.as_enum.isSome)
  | KnownCameraControl.Gain =>
    setBranch verify rc id value (fun v => v.as_boolean.isSome)
  | KnownCameraControl.Zoom =>
    setBranch verify rc id value (fun v => v.as_float.isSome)
  | KnownCameraControl.Exposure =>
    setBranch verify rc id value (fun v => v.as_enum.isSome)
  | KnownCameraControl.Iris => SetOutcome.rejected
  | KnownCameraControl.Focus =>
    setBranch verify rc id value (fun v => v.as_enum.isSome)
  | KnownCameraControl.Other 0 =>
    setBranch verify rc id value (fun v => v.as_point.isSome)
  | KnownCameraControl.Other 1 =>
    setBranch verify rc id value (fun v => v.as_float.isSome)
  | KnownCameraControl.Other 2 =>
    setBranch verify rc id value (fun v => v.as_point.isSome)
  | KnownCameraControl.Other 3 =>
    setBranch verify rc id value (fun v => v.as_boolean.isSome)
  | KnownCameraControl.Other 4 =>
    setBranch verify rc id value (fun v => v.as_float.isSome)
  | KnownCameraControl.Other 5 =>
    setBranch verify rc id value (fun v => v.as_enum.isSome)
  | KnownCameraControl.Other 6 =>
    setBranch verify rc id value (fun v => v.as_boolean.isSome)
  | _ => SetOutcome.rejected

/-! ### Unfolding equations for `fulfill` -/

theorem fulfill_AHR (l : List CameraFormat) :
    fulfill RequestedFormatType.AbsoluteHighestResolution l =
      (match (List.insertionSort byResolutionLe l).getLast? with
       | none => none
       | some resolution =>
         (List.insertionSort byFrameRateLe
           ((List.insertionSort byResolutionLe l).filter
             (fun fmt => decide (fmt.resolution = resolution.resolution)))).getLast?) := rfl

theorem fulfill_AHF (l : List CameraFormat) :
    fulfill RequestedFormatType.AbsoluteHighestFrameRate l =
      (match (List.insertionSort byFrameRateLe l).getLast? with
       | none => none
       | some frame_rate =>
         (List.insertionSort byResolutionLe
           ((List.insertionSort byFrameRateLe l).filter
             (fun fmt => decide (fmt.frame_rate = frame_rate.frame_rate)))).getLast?) := rfl

theorem fulfill_HR (res : Resolution) (l : List CameraFormat) :
    fulfill (RequestedFormatType.HighestResolution res) l =
      (match (List.insertionSort byFrameRateLe
          (l.filter (fun x => decide (x.resolution = res)))).getLast? with
       | none => none
       | some cf =>
         ((List.insertionSort byFrameRateLe
             (l.filter (fun x => decide (x.resolution = res)))).filter
           (fun x => decide (x.frame_rate = cf.frame_rate))).getLast?) := rfl

theorem fulfill_HF (fps : Nat) (l : List CameraFormat) :
    fulfill (RequestedFormatType.HighestFrameRate fps) l =
      (match (List.insertionSort byResolutionLe
          (l.filter (fun x => decide (x.frame_rate = fps)))).getLast? with
       | none => none
       | some cf =>
         ((List.insertionSort byResolutionLe
             (l.filter (fun x => decide (x.frame_rate = fps)))).filter
           (fun x => decide (x.resolution = cf.resolution))).getLast?) := rfl

theorem fulfill_Closest (c : CameraFormat) (l : List CameraFormat) :
    fulfill (RequestedFormatType.Closest c) l =
      (match (dedupByDist (List.insertionSort distFstLe
          ((l.filter (fun x => decide (x.format = c.format))).map
            (fun x => (dist_no_sqrt x.resolution c.resolution, x.resolution))))).head? with
       | none => none
       | some p =>
         match (List.insertionSort fpsFstLe
             ((l.filterMap (fun camera_format =>
               if camera_format.format = c.format ∧ camera_format.resolution = c.resolution
               then some camera_format.frame_rate else none)).map
               (fun x => (fpsAbsDiff x c.frame_rate, x)))).head? with
         | none => none
         | some q => some ⟨p.2, c.format, q.2⟩) := rfl

theorem filterMap_if_eq_map_filter {α β : Type} (p : α → Prop) [DecidablePred p]
    (g : α → β) :
    ∀ l : List α,
      (l.filterMap (fun a => if p a then some (g a) else none)) =
        (l.filter (fun a => decide (p a))).map g
  | [] => rfl
  | a :: l => by
    by_cases hpa : p a <;>
      simp [List.filterMap_cons, List.filter_cons, hpa, filterMap_if_eq_map_filter p g l]

/-! ### The claims -/

/-- C8: the order on `Resolution` compares widths first and then heights,
both ascending: `r1 < r2` (i.e. `cmp` returns `Less`) iff `r1`'s width is
smaller, or the widths are equal and `r1`'s height is smaller; resolutions
compare equal exactly when they are equal, so the order is total and ties
in width are ordered by height. -/
theorem resolution_order_width_then_height (r1 r2 : Resolution) :
    (Resolution.cmp r1 r2 = Ordering.lt ↔
      r1.width_x < r2.width_x ∨
        (r1.width_x = r2.width_x ∧ r1.height_y < r2.height_y)) ∧
    (Resolution.cmp r1 r2 = Ordering.eq ↔ r1 = r2) :=
  ⟨Resolution.cmp_eq_lt, Resolution.cmp_eq_eq⟩

/-- C5: resolving any `RequestedFormatType` variant against an empty list
of available formats returns `none`. -/
theorem fulfill_empty_none (rt : RequestedFormatType) : fulfill rt [] = none := by
  cases rt <;> rfl

/-- C10 fails as stated: at width and height exactly `2 ^ 15` (allowed by
the claim's bound) the `i32` sum `(2 ^ 15) ^ 2 + (2 ^ 15) ^ 2 = 2 ^ 31`
overflows, so the computed distance is `-(2 ^ 31)` instead of the exact
`2 ^ 31`. -/
theorem dist_i32_overflow_at_pow15 :
    (32768 : Nat) ≤ 2 ^ 15 ∧
    dist_no_sqrt ⟨32768, 32768⟩ ⟨0, 0⟩ = -(2 ^ 31) ∧
    sqDistExact ⟨32768, 32768⟩ ⟨0, 0⟩ = 2 ^ 31 := by
  refine ⟨by norm_num, by decide, by decide⟩

/-- C10 (amended): when every width and height involved is strictly below
`2 ^ 15`, the `i32` computation of the squared distance in
`fulfill`'s `Closest` branch equals the exact mathematical
`(w_c - w_t) ^ 2 + (h_c - h_t) ^ 2`, so minimum-distance selection agrees
with exact integer arithmetic. -/
theorem dist_i32_exact_below_pow15 (a b : Resolution)
    (ha : a.width_x < 2 ^ 15 ∧ a.height_y < 2 ^ 15)
    (hb : b.width_x < 2 ^ 15 ∧ b.height_y < 2 ^ 15) :
    dist_no_sqrt a b = sqDistExact a b :=
  dist_no_sqrt_exact (by omega) (by omega) (by omega) (by omega)

/-- Witness for the amended C10 at a concrete input. -/
theorem dist_i32_exact_below_pow15_witness :
    ((5 : Nat) < 2 ^ 15 ∧ (6 : Nat) < 2 ^ 15) ∧
    ((2 : Nat) < 2 ^ 15 ∧ (1 : Nat) < 2 ^ 15) ∧
    dist_no_sqrt ⟨5, 6⟩ ⟨2, 1⟩ = sqDistExact ⟨5, 6⟩ ⟨2, 1⟩ :=
  ⟨⟨by norm_num, by norm_num⟩, ⟨by norm_num, by norm_num⟩,
    dist_i32_exact_below_pow15 ⟨5, 6⟩ ⟨2, 1⟩ ⟨by norm_num, by norm_num⟩
      ⟨by norm_num, by norm_num⟩⟩

/-- C2 fails on the code: with one available format whose encoding equals
the target's but whose resolution differs from the target's, `fulfill`
returns `none` — the `Closest` branch filters candidate frame rates by the
*target's* resolution (`camera_format.resolution() == c.resolution()`), so
no frame rate is found although the encoding filter was non-empty.  The
enum's documentation states `Closest` only fails to resolve when the
`FrameFormat` does not exist, so the code contradicts its own
documentation here. -/
theorem closest_none_despite_encoding_match :
    fulfill (RequestedFormatType.Closest ⟨⟨800, 600⟩, 1, 30⟩)
      [⟨⟨640, 480⟩, 1, 30⟩] = none ∧
    (⟨⟨640, 480⟩, 1, 30⟩ : CameraFormat).format =
      (⟨⟨800, 600⟩, 1, 30⟩ : CameraFormat).format := by
  exact ⟨by decide, rfl⟩

/-- C9: every variant other than `Closest` returns (when it returns at
all) an exact element of the input list. -/
theorem fulfill_non_closest_returns_member (rt : RequestedFormatType)
    (l : List CameraFormat) (f : CameraFormat)
    (hrt : ∀ c, rt ≠ RequestedFormatType.Closest c)
    (h : fulfill rt l = some f) : f ∈ l := by
  cases rt with
  | AbsoluteHighestResolution =>
    rw [fulfill_AHR] at h
    rcases e : (List.insertionSort byResolutionLe l).getLast? with _ | R <;> rw [e] at h
    · cases h
    · have hf := List.mem_of_mem_getLast? h
      rw [List.mem_insertionSort] at hf
      exact (List.mem_insertionSort _).mp (List.mem_filter.mp hf).1
  | AbsoluteHighestFrameRate =>
    rw [fulfill_AHF] at h
    rcases e : (List.insertionSort byFrameRateLe l).getLast? with _ | R <;> rw [e] at h
    · cases h
    · have hf := List.mem_of_mem_getLast? h
      rw [List.mem_insertionSort] at hf
      exact (List.mem_insertionSort _).mp (List.mem_filter.mp hf).1
  | HighestResolution res =>
    rw [fulfill_HR] at h
    rcases e : (List.insertionSort byFrameRateLe
        (l.filter (fun x => decide (x.resolution = res)))).getLast? with _ | cf <;>
      rw [e] at h
    · cases h
    · have hf := List.mem_of_mem_getLast? h
      have hf2 := (List.mem_filter.mp hf).1
      rw [List.mem_insertionSort] at hf2
      exact (List.mem_filter.mp hf2).1
  | HighestFrameRate fps =>
    rw [fulfill_HF] at h
    rcases e : (List.insertionSort byResolutionLe
        (l.filter (fun x => decide (x.frame_rate = fps)))).getLast? with _ | cf <;>
      rw [e] at h
    · cases h
    · have hf := List.mem_of_mem_getLast? h
      have hf2 := (List.mem_filter.mp hf).1
      rw [List.mem_insertionSort] at hf2
      exact (List.mem_filter.mp hf2).1
  | Closest c => exact absurd rfl (hrt c)
  | None => exact mem_of_head? h

/-- Witness for C9 at a concrete input. -/
theorem fulfill_non_closest_returns_member_witness :
    (∀ c, RequestedFormatType.None ≠ RequestedFormatType.Closest c) ∧
    (⟨⟨640, 480⟩, 1, 30⟩ : CameraFormat) ∈ [(⟨⟨640, 480⟩, 1, 30⟩ : CameraFormat)] :=
  ⟨fun _ h => RequestedFormatType.noConfusion h,
    fulfill_non_closest_returns_member RequestedFormatType.None
      [⟨⟨640, 480⟩, 1, 30⟩] ⟨⟨640, 480⟩, 1, 30⟩
      (fun _ h => RequestedFormatType.noConfusion h) rfl⟩

/-- C3: on a non-empty list, `AbsoluteHighestResolution` returns an entry
whose resolution is the maximum occurring resolution (width-then-height
order) and whose frame rate is maximal among the entries at that
resolution; on the spec's example it returns `(1920x1080, 30)`; on the
empty list it returns `none`. -/
theorem absoluteHighestResolution_spec :
    (∀ l : List CameraFormat, l ≠ [] →
      ∃ f, fulfill RequestedFormatType.AbsoluteHighestResolution l = some f ∧
        f ∈ l ∧
        (∀ g ∈ l, Resolution.cmp g.resolution f.resolution ≠ Ordering.gt) ∧
        (∀ g ∈ l, g.resolution = f.resolution → g.frame_rate ≤ f.frame_rate)) ∧
    fulfill RequestedFormatType.AbsoluteHighestResolution
      [⟨⟨640, 480⟩, 1, 30⟩, ⟨⟨1920, 1080⟩, 1, 15⟩, ⟨⟨1920, 1080⟩, 1, 30⟩] =
      some ⟨⟨1920, 1080⟩, 1, 30⟩ ∧
    fulfill RequestedFormatType.AbsoluteHighestResolution [] = none := by
  refine ⟨?_, by decide, rfl⟩
  intro l hl
  have hfne : List.insertionSort byResolutionLe l ≠ [] := by
    intro hnil
    have hlen := List.length_insertionSort byResolutionLe l
    rw [hnil] at hlen
    exact hl (List.eq_nil_of_length_eq_zero hlen.symm)
  obtain ⟨R, hR⟩ := getLast?_isSome_of_ne_nil hfne
  have hRmem_f : R ∈ List.insertionSort byResolutionLe l := List.mem_of_mem_getLast? hR
  have hRmem : R ∈ l := (List.mem_insertionSort _).mp hRmem_f
  have hRfil : R ∈ (List.insertionSort byResolutionLe l).filter
      (fun fmt => decide (fmt.resolution = R.resolution)) :=
    List.mem_filter.mpr ⟨hRmem_f, by simp⟩
  have hs2ne : List.insertionSort byFrameRateLe
      ((List.insertionSort byResolutionLe l).filter
        (fun fmt => decide (fmt.resolution = R.resolution))) ≠ [] := by
    intro hnil
    rw [← List.mem_insertionSort (r := byFrameRateLe)] at hRfil
    rw [hnil] at hRfil
    cases hRfil
  obtain ⟨f, hfL⟩ := getLast?_isSome_of_ne_nil hs2ne
  have hffil : f ∈ (List.insertionSort byResolutionLe l).filter
      (fun fmt => decide (fmt.resolution = R.resolution)) :=
    (List.mem_insertionSort _).mp (List.mem_of_mem_getLast? hfL)
  have hfres : f.resolution = R.resolution := by
    have := (List.mem_filter.mp hffil).2
    simpa using this
  have hfmem : f ∈ l :=
    (List.mem_insertionSort _).mp (List.mem_filter.mp hffil).1
  refine ⟨f, ?_, hfmem, ?_, ?_⟩
  · rw [fulfill_AHR, hR]
    exact hfL
  · intro g hg
    have hgf : g ∈ List.insertionSort byResolutionLe l :=
      (List.mem_insertionSort _).mpr hg
    have hmax := sorted_getLast?_max
      (List.sorted_insertionSort byResolutionLe l) hR g hgf
    rw [hfres]
    rcases hmax with rfl | hle
    · exact byResolutionLe_refl g
    · exact hle
  · intro g hg hgres
    have hgfil : g ∈ (List.insertionSort byResolutionLe l).filter
        (fun fmt => decide (fmt.resolution = R.resolution)) := by
      refine List.mem_filter.mpr ⟨(List.mem_insertionSort _).mpr hg, ?_⟩
      rw [hgres, hfres]
      simp
    have hgsl : g ∈ List.insertionSort byFrameRateLe
        ((List.insertionSort byResolutionLe l).filter
          (fun fmt => decide (fmt.resolution = R.resolution))) :=
      (List.mem_insertionSort _).mpr hgfil
    have hmax := sorted_getLast?_max
      (List.sorted_insertionSort byFrameRateLe _) hfL g hgsl
    rcases hmax with rfl | hle
    · exact le_refl _
    · exact hle

/-- Witness for C3's non-empty-list clause at a concrete input. -/
theorem absoluteHighestResolution_spec_witness :
    ([(⟨⟨640, 480⟩, 1, 30⟩ : CameraFormat)] ≠ []) ∧
    (∃ f, fulfill RequestedFormatType.AbsoluteHighestResolution
        [(⟨⟨640, 480⟩, 1, 30⟩ : CameraFormat)] = some f ∧
      f ∈ [(⟨⟨640, 480⟩, 1, 30⟩ : CameraFormat)] ∧
      (∀ g ∈ [(⟨⟨640, 480⟩, 1, 30⟩ : CameraFormat)],
        Resolution.cmp g.resolution f.resolution ≠ Ordering.gt) ∧
      (∀ g ∈ [(⟨⟨640, 480⟩, 1, 30⟩ : CameraFormat)],
        g.resolution = f.resolution → g.frame_rate ≤ f.frame_rate)) :=
  ⟨by simp,
    absoluteHighestResolution_spec.1 [⟨⟨640, 480⟩, 1, 30⟩] (by simp)⟩

/-- C4: `HighestResolution(r)` returns `none` exactly when no entry's
resolution equals `r` (no nearest fallback), and otherwise returns an
entry with resolution exactly `r` and the highest frame rate among those;
on the spec's P3 example (requesting `800x600`) it returns `none`. -/
theorem highestResolution_exact_match (res : Resolution) (l : List CameraFormat) :
    ((∀ g ∈ l, g.resolution ≠ res) →
      fulfill (RequestedFormatType.HighestResolution res) l = none) ∧
    (∀ e ∈ l, e.resolution = res →
      ∃ f, fulfill (RequestedFormatType.HighestResolution res) l = some f ∧
        f ∈ l ∧ f.resolution = res ∧
        ∀ g ∈ l, g.resolution = res → g.frame_rate ≤ f.frame_rate) := by
  constructor
  · intro hnone
    have hfil : l.filter (fun x => decide (x.resolution = res)) = [] := by
      rw [List.filter_eq_nil_iff]
      intro a ha
      simpa using hnone a ha
    rw [fulfill_HR, hfil]
    rfl
  · intro e he heres
    have hefil : e ∈ l.filter (fun x => decide (x.resolution = res)) :=
      List.mem_filter.mpr ⟨he, by simpa using heres⟩
    have hsne : List.insertionSort byFrameRateLe
        (l.filter (fun x => decide (x.resolution = res))) ≠ [] := by
      intro hnil
      rw [← List.mem_insertionSort (r := byFrameRateLe)] at hefil
      rw [hnil] at hefil
      cases hefil
    obtain ⟨cf, hcf⟩ := getLast?_isSome_of_ne_nil hsne
    have hcfmem : cf ∈ List.insertionSort byFrameRateLe
        (l.filter (fun x => decide (x.resolution = res))) :=
      List.mem_of_mem_getLast? hcf
    have hcffil : cf ∈ (List.insertionSort byFrameRateLe
        (l.filter (fun x => decide (x.resolution = res)))).filter
        (fun x => decide (x.frame_rate = cf.frame_rate)) :=
      List.mem_filter.mpr ⟨hcfmem, by simp⟩
    have hfinne : (List.insertionSort byFrameRateLe
        (l.filter (fun x => decide (x.resolution = res)))).filter
        (fun x => decide (x.frame_rate = cf.frame_rate)) ≠ [] := by
      intro hnil
      rw [hnil] at hcffil
      cases hcffil
    obtain ⟨f, hfL⟩ := getLast?_isSome_of_ne_nil hfinne
    have hfmem2 := List.mem_of_mem_getLast? hfL
    have hffps : f.frame_rate = cf.frame_rate := by
      have := (List.mem_filter.mp hfmem2).2
      simpa using this
    have hfsorted := (List.mem_filter.mp hfmem2).1
    have hffilter := (List.mem_insertionSort _).mp hfsorted
    have hfmem : f ∈ l := (List.mem_filter.mp hffilter).1
    have hfres : f.resolution = res := by
      have := (List.mem_filter.mp hffilter).2
      simpa using this
    refine ⟨f, ?_, hfmem, hfres, ?_⟩
    · rw [fulfill_HR, hcf]
      exact hfL
    · intro g hg hgres
      have hgfil : g ∈ l.filter (fun x => decide (x.resolution = res)) :=
        List.mem_filter.mpr ⟨hg, by simpa using hgres⟩
      have hgsl : g ∈ List.insertionSort byFrameRateLe
          (l.filter (fun x => decide (x.resolution = res))) :=
        (List.mem_insertionSort _).mpr hgfil
      have hmax := sorted_getLast?_max
        (List.sorted_insertionSort byFrameRateLe _) hcf g hgsl
      rw [hffps]
      rcases hmax with rfl | hle
      · exact le_refl _
      · exact hle

/-- C6 fails as stated: a step of zero makes `verify_setter` return `true`
before any type or range check, so an `Integer` setter far above the
described `IntegerRange` max is accepted, and even a `Boolean` setter is
accepted against an `Integer` description. -/
theorem verify_setter_step_zero_skips_checks :
    verify_setter rejectAllFloatOps
      (ControlValueDescription.IntegerRange 0 10 0 0 0)
      (ControlValueSetter.Integer 100) = true ∧
    ¬ ((100 : Int) ≤ 10) ∧
    verify_setter rejectAllFloatOps
      (ControlValueDescription.Integer 0 0 0)
      (ControlValueSetter.Boolean true) = true :=
  ⟨rfl, by norm_num, rfl⟩

/-- C6 (amended): over the non-floating-point value-domain shapes,
`verify_setter` accepts the setter iff: for `Integer`/`IntegerRange` with
step zero, unconditionally (no type or range check is performed);
for nonzero step, the setter is an `Integer i` satisfying the step
condition `(i+default) % step = 0 ∨ (i+value) % step = 0` (and
`min ≤ i ≤ max` for `IntegerRange`), the step condition stated here in
exact arithmetic under the precondition that the `isize` sums
`i + default` and `i + value` do not overflow (otherwise the code
computes it on the wrapped sums, see `verify_setter`); for `None`,
`Boolean`, `String`, `Bytes` and `KeyValuePair`, exactly when the setter
has the matching shape; for `Enum`, exactly when the setter is an
`EnumValue` listed in `possible`.  This holds for every interpretation of
the float branches. -/
theorem verify_setter_characterisation (ops : FloatOpsModel)
    (s : ControlValueSetter) :
    (verify_setter ops ControlValueDescription.None s = true ↔
      s = ControlValueSetter.None) ∧
    (∀ v d st : Int,
      (∀ i, s = ControlValueSetter.Integer i →
        -(2 ^ 63) ≤ i + d ∧ i + d < 2 ^ 63 ∧ -(2 ^ 63) ≤ i + v ∧ i + v < 2 ^ 63) →
      (verify_setter ops (ControlValueDescription.Integer v d st) s = true ↔
        (st = 0 ∨ ∃ i, s = ControlValueSetter.Integer i ∧
          ((i + d).tmod st = 0 ∨ (i + v).tmod st = 0)))) ∧
    (∀ mn mx v st d : Int,
      (∀ i, s = ControlValueSetter.Integer i →
        -(2 ^ 63) ≤ i + d ∧ i + d < 2 ^ 63 ∧ -(2 ^ 63) ≤ i + v ∧ i + v < 2 ^ 63) →
      (verify_setter ops (ControlValueDescription.IntegerRange mn mx v st d) s = true ↔
        (st = 0 ∨ ∃ i, s = ControlValueSetter.Integer i ∧
          ((i + d).tmod st = 0 ∨ (i + v).tmod st = 0) ∧ mn ≤ i ∧ i ≤ mx))) ∧
    (∀ v d : Bool,
      verify_setter ops (ControlValueDescription.Boolean v d) s = true ↔
        ∃ b, s = ControlValueSetter.Boolean b) ∧
    (∀ v d,
      verify_setter ops (ControlValueDescription.String v d) s = true ↔
        ∃ str, s = ControlValueSetter.String str) ∧
    (∀ v d,
      verify_setter ops (ControlValueDescription.Bytes v d) s = true ↔
        ∃ b, s = ControlValueSetter.Bytes b) ∧
    (∀ k v d,
      verify_setter ops (ControlValueDescription.KeyValuePair k v d) s = true ↔
        ∃ a b, s = ControlValueSetter.KeyValue a b) ∧
    (∀ v ps d,
      verify_setter ops (ControlValueDescription.Enum v ps d) s = true ↔
        ∃ e, s = ControlValueSetter.EnumValue e ∧ e ∈ ps) := by
  refine ⟨?_, ?_, ?_, ?_, ?_, ?_, ?_, ?_⟩
  · cases s <;> simp [verify_setter, ControlValueSetter.as_none]
  · intro v d st hb
    by_cases hst : st = 0
    · simp [verify_setter, hst]
    · cases s
      case neg.Integer i =>
        obtain ⟨h1, h2, h3, h4⟩ := hb i rfl
        simp only [verify_setter, if_neg hst, ControlValueSetter.as_integer,
          wrap64_eq_self h1 h2, wrap64_eq_self h3 h4]
        simp [hst]
      all_goals simp [verify_setter, hst, ControlValueSetter.as_integer]
  · intro mn mx v st d hb
    by_cases hst : st = 0
    · simp [verify_setter, hst]
    · cases s
      case neg.Integer i =>
        obtain ⟨h1, h2, h3, h4⟩ := hb i rfl
        simp only [verify_setter, if_neg hst, ControlValueSetter.as_integer,
          wrap64_eq_self h1 h2, wrap64_eq_self h3 h4]
        simp [hst, and_assoc]
      all_goals simp [verify_setter, hst, ControlValueSetter.as_integer]
  · intro v d
    cases s <;> simp [verify_setter, ControlValueSetter.as_boolean]
  · intro v d
    cases s <;> simp [verify_setter, ControlValueSetter.as_str]
  · intro v d
    cases s <;> simp [verify_setter, ControlValueSetter.as_bytes]
  · intro k v d
    cases s <;> simp [verify_setter, ControlValueSetter.as_key_value]
  · intro v ps d
    cases s <;> simp [verify_setter, ControlValueSetter.as_enum]

/-- Witness for the amended C6 at a concrete input: the setter
`Integer 4` against the description `Integer {value 0, default 2,
step 3}` is accepted exactly as the exact-arithmetic step condition
says, the overflow precondition holding evidently. -/
theorem verify_setter_characterisation_witness :
    (∀ i : Int, ControlValueSetter.Integer 4 = ControlValueSetter.Integer i →
      -(2 ^ 63) ≤ i + 2 ∧ i + 2 < 2 ^ 63 ∧ -(2 ^ 63) ≤ i + 0 ∧ i + 0 < 2 ^ 63) ∧
    (verify_setter rejectAllFloatOps (ControlValueDescription.Integer 0 2 3)
        (ControlValueSetter.Integer 4) = true ↔
      ((3 : Int) = 0 ∨ ∃ i, ControlValueSetter.Integer 4 = ControlValueSetter.Integer i ∧
        ((i + 2).tmod 3 = 0 ∨ (i + 0).tmod 3 = 0))) := by
  have hb : ∀ i : Int, ControlValueSetter.Integer 4 = ControlValueSetter.Integer i →
      -(2 ^ 63) ≤ i + 2 ∧ i + 2 < 2 ^ 63 ∧ -(2 ^ 63) ≤ i + 0 ∧ i + 0 < 2 ^ 63 := by
    intro i h
    injection h with h
    subst h
    norm_num
  exact ⟨hb,
    (verify_setter_characterisation rejectAllFloatOps
      (ControlValueSetter.Integer 4)).2.1 0 2 3 hb⟩

/-- C7: a control whose flag list contains `ReadOnly` is rejected by
`set_control` for every setter value — the rejection happens before any
value is forwarded to the device, for every branch of the id dispatch and
every `verify_setter` implementation. -/
theorem set_control_rejects_readonly
    (verify : ControlValueDescription → ControlValueSetter → Bool)
    (rc : List CameraControl) (id : KnownCameraControl)
    (value : ControlValueSetter) (ctrl : CameraControl)
    (hget : controlsGet rc id = some ctrl)
    (hro : KnownCameraControlFlag.ReadOnly ∈ ctrl.flag) :
    set_control verify rc id value = SetOutcome.rejected := by
  have hb : ∀ conv, setBranch verify rc id value conv = SetOutcome.rejected := by
    intro conv
    have hc : ctrl.flag.contains KnownCameraControlFlag.ReadOnly = true :=
      List.elem_eq_true_of_mem hro
    unfold setBranch
    rw [hget]
    dsimp only
    rw [hc]
    simp
  cases id with
  | Brightness => exact hb (fun v => v.as_float.isSome)
  | Contrast => rfl
  | Hue => rfl
  | Saturation => rfl
  | Sharpness => rfl
  | Gamma => exact hb (fun v => v.as_integer.isSome)
  | WhiteBalance => exact hb (fun v => v.as_enum.isSome)
  | BacklightComp => exact hb (fun v => v.as_enum.isSome)
  | Gain => exact hb (fun v => v.as_boolean.isSome)
  | Pan => rfl
  | Tilt => rfl
  | Zoom => exact hb (fun v => v.as_float.isSome)
  | Exposure => exact hb (fun v => v.as_enum.isSome)
  | Iris => rfl
  | Focus => exact hb (fun v => v.as_enum.isSome)
  | Other i =>
    rcases i with _ | _ | _ | _ | _ | _ | _ | j
    · exact hb (fun v => v.as_point.isSome)
    · exact hb (fun v => v.as_float.isSome)
    · exact hb (fun v => v.as_point.isSome)
    · exact hb (fun v => v.as_boolean.isSome)
    · exact hb (fun v => v.as_float.isSome)
    · exact hb (fun v => v.as_enum.isSome)
    · exact hb (fun v => v.as_boolean.isSome)
    · rfl

/-- A read-only brightness control used in the witness for C7. -/
def roCtrl : CameraControl :=
  ⟨KnownCameraControl.Brightness, noName,
    ControlValueDescription.Boolean true true,
    [KnownCameraControlFlag.ReadOnly], true⟩

/-- Witness for C7 at a concrete control list and setter. -/
theorem set_control_rejects_readonly_witness :
    controlsGet [roCtrl] KnownCameraControl.Brightness = some roCtrl ∧
    KnownCameraControlFlag.ReadOnly ∈ roCtrl.flag ∧
    set_control (fun _ _ => true) [roCtrl] KnownCameraControl.Brightness
      ControlValueSetter.None = SetOutcome.rejected :=
  ⟨rfl, by simp [roCtrl],
    set_control_rejects_readonly (fun _ _ => true) [roCtrl]
      KnownCameraControl.Brightness ControlValueSetter.None roCtrl rfl
      (by simp [roCtrl])⟩

theorem sqDistExact_self (a : Resolution) : sqDistExact a a = 0 := by
  simp [sqDistExact]

set_option maxRecDepth 100000 in
/-- C1 fails as stated, in both of its selection clauses, because the
distance and frame-rate keys are computed in wrapping `i32` arithmetic.
First input: target `0x0`, candidates `50000x0` (whose squared distance
`2500000000` wraps to a negative `i32`) and `0x0`; the code picks
resolution `50000x0` although `0x0` is at exact distance `0`.  Second
input: target frame rate `0`, candidate frame rates `3221225472` (whose
cast to `i32` is negative, giving key `1073741824`) and `2147483647`; the
code picks `3221225472` although `2147483647` is closer. -/
theorem closest_spec_counterexample :
    (fulfill (RequestedFormatType.Closest ⟨⟨0, 0⟩, 1, 30⟩)
        [⟨⟨50000, 0⟩, 1, 10⟩, ⟨⟨0, 0⟩, 1, 30⟩] =
      some ⟨⟨50000, 0⟩, 1, 30⟩ ∧
      closestResolutionSpec ⟨⟨0, 0⟩, 1, 30⟩
        [⟨⟨50000, 0⟩, 1, 10⟩, ⟨⟨0, 0⟩, 1, 30⟩] = some ⟨0, 0⟩ ∧
      (⟨0, 0⟩ : Resolution) ≠ ⟨50000, 0⟩) ∧
    (fulfill (RequestedFormatType.Closest ⟨⟨0, 0⟩, 1, 0⟩)
        [⟨⟨0, 0⟩, 1, 3221225472⟩, ⟨⟨0, 0⟩, 1, 2147483647⟩] =
      some ⟨⟨0, 0⟩, 1, 3221225472⟩ ∧
      closestFrameRateSpec ⟨⟨0, 0⟩, 1, 0⟩
        [⟨⟨0, 0⟩, 1, 3221225472⟩, ⟨⟨0, 0⟩, 1, 2147483647⟩] ⟨0, 0⟩ =
        some 2147483647 ∧
      (2147483647 : Nat) ≠ 3221225472) := by
  exact ⟨⟨by decide, by decide, by decide⟩, ⟨by decide, by decide, by decide⟩⟩

/-- C1 (amended): under the additional precondition that every width and
height involved is below `2 ^ 15` and every frame rate below `2 ^ 31`
(so that no `i32` computation wraps), if `Closest(t)` returns `f` then
`f`'s encoding is `t`'s; `f`'s resolution is that of the first
encoding-matching entry achieving the minimal exact squared distance to
`t`'s resolution; and `f`'s frame rate is that of the first
encoding-matching entry at that resolution achieving the minimal exact
absolute frame-rate difference, ties always broken by iteration order. -/
theorem closest_spec_bounded (t f : CameraFormat) (l : List CameraFormat)
    (ht : t.resolution.width_x < 2 ^ 15 ∧ t.resolution.height_y < 2 ^ 15 ∧
      t.frame_rate < 2 ^ 31)
    (hl : ∀ g ∈ l, g.resolution.width_x < 2 ^ 15 ∧
      g.resolution.height_y < 2 ^ 15 ∧ g.frame_rate < 2 ^ 31)
    (h : fulfill (RequestedFormatType.Closest t) l = some f) :
    f.format = t.format ∧
    closestResolutionSpec t l = some f.resolution ∧
    closestFrameRateSpec t l f.resolution = some f.frame_rate := by
  rw [fulfill_Closest] at h
  have hhead1 : (dedupByDist (List.insertionSort distFstLe
      ((l.filter (fun x => decide (x.format = t.format))).map
        (fun x => (dist_no_sqrt x.resolution t.resolution, x.resolution))))).head? =
      (firstMinBy (fun x => dist_no_sqrt x.resolution t.resolution)
        (l.filter (fun x => decide (x.format = t.format)))).map
        (fun x => (dist_no_sqrt x.resolution t.resolution, x.resolution)) := by
    rw [dedupByDist_head?,
      head?_insertionSort_eq_firstMinBy (fun p : Int × Resolution => p.1) distFstLe
        (fun a b => Iff.rfl),
      firstMinBy_map]
  have hfr : l.filterMap (fun camera_format =>
      if camera_format.format = t.format ∧ camera_format.resolution = t.resolution
      then some camera_format.frame_rate else none) =
      (l.filter (fun cf =>
        decide (cf.format = t.format ∧ cf.resolution = t.resolution))).map
        (fun cf => cf.frame_rate) :=
    filterMap_if_eq_map_filter _ _ l
  have hhead2 : (List.insertionSort fpsFstLe
      (((l.filter (fun cf =>
          decide (cf.format = t.format ∧ cf.resolution = t.resolution))).map
        (fun cf => cf.frame_rate)).map
        (fun x => (fpsAbsDiff x t.frame_rate, x)))).head? =
      (firstMinBy (fun cf => fpsAbsDiff cf.frame_rate t.frame_rate)
        (l.filter (fun cf =>
          decide (cf.format = t.format ∧ cf.resolution = t.resolution)))).map
        (fun cf => (fpsAbsDiff cf.frame_rate t.frame_rate, cf.frame_rate)) := by
    rw [head?_insertionSort_eq_firstMinBy (fun p : Nat × Nat => p.1) fpsFstLe
      (fun a b => Iff.rfl), List.map_map, firstMinBy_map]
    dsimp only [Function.comp_def]
  rw [hhead1, hfr, hhead2] at h
  rcases e1 : firstMinBy (fun x => dist_no_sqrt x.resolution t.resolution)
      (l.filter (fun x => decide (x.format = t.format))) with _ | x0
  · rw [e1] at h
    exact Option.noConfusion h
  rw [e1] at h
  rcases e2 : firstMinBy (fun cf => fpsAbsDiff cf.frame_rate t.frame_rate)
      (l.filter (fun cf =>
        decide (cf.format = t.format ∧ cf.resolution = t.resolution))) with _ | y0
  · rw [e2] at h
    exact Option.noConfusion h
  rw [e2] at h
  have hf : (⟨x0.resolution, t.format, y0.frame_rate⟩ : CameraFormat) = f :=
    Option.some.inj h
  subst hf
  have hx0S : x0 ∈ l.filter (fun x => decide (x.format = t.format)) :=
    firstMinBy_mem _ e1
  have hx0l : x0 ∈ l := (List.mem_filter.mp hx0S).1
  have hy0C : y0 ∈ l.filter (fun cf =>
      decide (cf.format = t.format ∧ cf.resolution = t.resolution)) :=
    firstMinBy_mem _ e2
  have hy0l : y0 ∈ l := (List.mem_filter.mp hy0C).1
  have hy0props : y0.format = t.format ∧ y0.resolution = t.resolution := by
    have := (List.mem_filter.mp hy0C).2
    simpa using this
  have hy0S : y0 ∈ l.filter (fun x => decide (x.format = t.format)) :=
    List.mem_filter.mpr ⟨hy0l, by simp [hy0props.1]⟩
  have hkeys : ∀ x ∈ l.filter (fun x => decide (x.format = t.format)),
      dist_no_sqrt x.resolution t.resolution = sqDistExact x.resolution t.resolution := by
    intro x hx
    have hxl := (List.mem_filter.mp hx).1
    obtain ⟨hw, hh, _⟩ := hl x hxl
    exact dist_no_sqrt_exact (by omega) (by omega) (by omega) (by omega)
  have e1' : firstMinBy (fun x => sqDistExact x.resolution t.resolution)
      (l.filter (fun x => decide (x.format = t.format))) = some x0 := by
    rw [firstMinBy_congr (fun x hx => (hkeys x hx).symm)]
    exact e1
  have hx0min := firstMinBy_min _ e1' y0 hy0S
  have hx0res : x0.resolution = t.resolution := by
    have h0 : sqDistExact y0.resolution t.resolution = 0 := by
      rw [hy0props.2]
      exact sqDistExact_self _
    have hle : sqDistExact x0.resolution t.resolution ≤ 0 := by
      rw [h0] at hx0min
      exact hx0min
    exact sqDistExact_eq_zero
      (le_antisymm hle (sqDistExact_nonneg _ _))
  refine ⟨rfl, ?_, ?_⟩
  · unfold closestResolutionSpec
    rw [e1']
    rfl
  · show (firstMinBy (fun x => ((x.frame_rate : Int) - t.frame_rate).natAbs)
        (l.filter (fun x =>
          decide (x.format = t.format ∧ x.resolution = x0.resolution)))).map
        (fun x => x.frame_rate) = some y0.frame_rate
    rw [hx0res]
    have hfkeys : ∀ cf ∈ l.filter (fun cf =>
        decide (cf.format = t.format ∧ cf.resolution = t.resolution)),
        ((cf.frame_rate : Int) - t.frame_rate).natAbs =
          fpsAbsDiff cf.frame_rate t.frame_rate := by
      intro cf hcf
      have hcfl := (List.mem_filter.mp hcf).1
      exact (fpsAbsDiff_exact (hl cf hcfl).2.2 ht.2.2).symm
    rw [firstMinBy_congr hfkeys, e2]
    rfl

/-- Witness for the amended C1 at a concrete input. -/
theorem closest_spec_bounded_witness :
    ((⟨⟨100, 100⟩, 1, 30⟩ : CameraFormat).resolution.width_x < 2 ^ 15 ∧
      (⟨⟨100, 100⟩, 1, 30⟩ : CameraFormat).resolution.height_y < 2 ^ 15 ∧
      (⟨⟨100, 100⟩, 1, 30⟩ : CameraFormat).frame_rate < 2 ^ 31) ∧
    fulfill (RequestedFormatType.Closest ⟨⟨100, 100⟩, 1, 30⟩)
      [⟨⟨100, 100⟩, 1, 25⟩] = some ⟨⟨100, 100⟩, 1, 25⟩ ∧
    ((⟨⟨100, 100⟩, 1, 25⟩ : CameraFormat).format =
      (⟨⟨100, 100⟩, 1, 30⟩ : CameraFormat).format ∧
    closestResolutionSpec ⟨⟨100, 100⟩, 1, 30⟩ [⟨⟨100, 100⟩, 1, 25⟩] =
      some (⟨⟨100, 100⟩, 1, 25⟩ : CameraFormat).resolution ∧
    closestFrameRateSpec ⟨⟨100, 100⟩, 1, 30⟩ [⟨⟨100, 100⟩, 1, 25⟩]
      (⟨⟨100, 100⟩, 1, 25⟩ : CameraFormat).resolution =
      some (⟨⟨100, 100⟩, 1, 25⟩ : CameraFormat).frame_rate) :=
  ⟨by norm_num, by decide,
    closest_spec_bounded ⟨⟨100, 100⟩, 1, 30⟩ ⟨⟨100, 100⟩, 1, 25⟩
      [⟨⟨100, 100⟩, 1, 25⟩] (by norm_num) (by decide) (by decide)⟩

/-- Witness for C4: P3's concrete no-fallback input, plus a successful
exact match. -/
theorem highestResolution_exact_match_witness :
    (∀ g ∈ [(⟨⟨640, 480⟩, 1, 30⟩ : CameraFormat), ⟨⟨1280, 720⟩, 1, 60⟩],
      g.resolution ≠ (⟨800, 600⟩ : Resolution)) ∧
    fulfill (RequestedFormatType.HighestResolution ⟨800, 600⟩)
      [⟨⟨640, 480⟩, 1, 30⟩, ⟨⟨1280, 720⟩, 1, 60⟩] = none ∧
    (∃ f, fulfill (RequestedFormatType.HighestResolution ⟨640, 480⟩)
        [(⟨⟨640, 480⟩, 1, 30⟩ : CameraFormat)] = some f ∧
      f ∈ [(⟨⟨640, 480⟩, 1, 30⟩ : CameraFormat)] ∧ f.resolution = ⟨640, 480⟩ ∧
      ∀ g ∈ [(⟨⟨640, 480⟩, 1, 30⟩ : CameraFormat)],
        g.resolution = ⟨640, 480⟩ → g.frame_rate ≤ f.frame_rate) :=
  ⟨by decide,
    (highestResolution_exact_match ⟨800, 600⟩
      [⟨⟨640, 480⟩, 1, 30⟩, ⟨⟨1280, 720⟩, 1, 60⟩]).1 (by decide),
    (highestResolution_exact_match ⟨640, 480⟩
      [⟨⟨640, 480⟩, 1, 30⟩]).2 ⟨⟨640, 480⟩, 1, 30⟩ (by simp) rfl⟩

end Jaenokhwa
